import Mathlib

/-!
Verification development for the FitFinder catalog ingestion pipeline.

Shallow embedding of the core scraping pipeline:
  - src/lamdba_functions/web_scrapper/lambda_function.py (lambda_handler)
  - src/lamdba_functions/web_scrapper/asos_item_scraper.py (item_scrapper)
  - src/scraper_func/datatier.py (perform_action)

Pure data structures stand for the Python dictionaries; network and store
effects are passed in explicitly (a page oracle, a detail-fetch oracle, an
explicit store state, booleans selecting which fallible effect raises).
-/

namespace FitFinder

/-- One listing entry as stored in the handler's page map
(lambda_function.py lines 104-109): title, price and link strings. -/
structure ListingEntry where
  title : String
  price : String
  link : String
deriving DecidableEq, Inhabited

/-- PageFetcher extraction (lambda_function.py lines 104-109): one entry per
title; price and link default to the empty string past the end of their
sequences (`prices[item_num].text if item_num < len(prices) else ""`). -/
def mkEntries (titles prices links : List String) : List ListingEntry :=
  (List.range titles.length).map fun i =>
    { title := titles.getD i ""
      price := prices.getD i ""
      link := links.getD i "" }

/-! ## CatalogWalker (lambda_function.py lines 76-112)

`site p` is the list of entries the site serves on page `p` (the result of
extracting titles/prices/links of that page).  The Python loop is
`while True`, so the Lean embedding takes explicit fuel; returning `none`
means the loop has not terminated within `fuel` iterations. -/

/-- The break condition of lines 96-97: `page > 1 and titles and
pages.get(1) and pages[1].get(0)` followed by the first-title comparison.
`pages.get(1)` is the stored page-1 dict, falsy when page 1 had no titles;
`pages[1].get(0)` is its first stored entry. -/
def wrapHit (page1 : List ListingEntry) (page : Nat) (entries : List ListingEntry) : Bool :=
  decide (1 < page) && !entries.isEmpty && !page1.isEmpty &&
    decide ((entries.headD default).title = (page1.headD default).title)

/-- The pagination loop of lines 82-112.  `stored` is the pages dict in page
order (`stored.headD []` is `pages[1]`).  On a wrap hit at page `p` the loop
breaks before storing page `p` and the catalog length is `p - 1`
(lines 98-100); otherwise page `p` is stored and the loop continues. -/
def walkAux (site : Nat → List ListingEntry) :
    Nat → Nat → List (List ListingEntry) → Option (Nat × List (List ListingEntry))
  | 0, _, _ => none
  | fuel + 1, page, stored =>
    let entries := site page
    if wrapHit (stored.headD []) page entries then some (page - 1, stored)
    else walkAux site fuel (page + 1) (stored ++ [entries])

/-- The full walk, starting at page 1 with an empty pages dict (lines 76-78). -/
def walk (site : Nat → List ListingEntry) (fuel : Nat) :
    Option (Nat × List (List ListingEntry)) :=
  walkAux site fuel 1 []

/-! ## DetailFetcher: sizes extraction (asos_item_scraper.py lines 38-45)

The Python code keeps a local list `sizes = []` and appends a variant's size
to the result only when it is `not in sizes` -- but it never appends anything
to `sizes`, which therefore stays empty for the whole loop.  The embedding
mirrors this exactly: `seen` is threaded unchanged. -/

/-- Line 44-45 loop body: append `v` to the result unless `v` is in `seen`;
`seen` is never extended, exactly as the dead local `sizes` in the source. -/
def sizesLoop : List String → List String → List String → List String
  | [], _, res => res
  | v :: vs, seen, res =>
    sizesLoop vs seen (if v ∈ seen then res else res ++ [v])

/-- `res['sizes']` as computed by item_scrapper for the given variant size
fields (asos_item_scraper.py lines 39, 44-45). -/
def item_scrapper_sizes (variantSizes : List String) : List String :=
  sizesLoop variantSizes [] []

/-- The dedup-by-first-occurrence the spec describes for sizes, for
comparison with what the code computes. -/
def specDedupSizes (variantSizes : List String) : List String :=
  (variantSizes.foldl (fun acc v => if v ∈ acc then acc else acc ++ [v]) [])

/-! ## DetailFetcher: colors / photo links (asos_item_scraper.py lines 47-54)

The primary path iterates `product_info['facetGroup']['facets'][0]['products']`
inside a `try`, appending in-stock descriptions and prefixed image URLs to
`res['colors']` / `res['photo_links']`; on ANY exception the `except` appends
the first variant's colour and the first top-level image URL to the SAME
lists.  A facet product whose access raises is modelled as `Except.error`;
the whole facet structure being inaccessible is `facets = Except.error`. -/

/-- One facet product of the primary path (lines 48-51). -/
structure FacetProd where
  isInStock : Bool
  description : String
  imageUrl : String
deriving DecidableEq, Inhabited

/-- The primary loop of lines 48-51: returns the colors and photo links
appended so far and whether an exception was raised.  Hitting an
`Except.error` product aborts the loop, keeping the earlier appends. -/
def primLoop : List (Except Unit FacetProd) → List String × List String × Bool
  | [] => ([], [], false)
  | Except.error _ :: _ => ([], [], true)
  | Except.ok p :: rest =>
    let r := primLoop rest
    if p.isInStock then
      (p.description :: r.1, ("https://" ++ p.imageUrl) :: r.2.1, r.2.2)
    else r

/-- The primary path including the access to the facet structure itself
(line 48): an inaccessible structure raises before any append. -/
def primResult : Except Unit (List (Except Unit FacetProd)) →
    List String × List String × Bool
  | Except.error _ => ([], [], true)
  | Except.ok prods => primLoop prods

/-- `(res['colors'], res['photo_links'])` as computed by lines 47-54:
the primary appends, plus -- when the try block raised -- the fallback
appends of `variants[0]['colour']` and `images[0]['url']` (no URL prefix). -/
def item_scrapper_colors (facets : Except Unit (List (Except Unit FacetProd)))
    (firstVariantColour firstImageUrl : String) : List String × List String :=
  let r := primResult facets
  if r.2.2 then (r.1 ++ [firstVariantColour], r.2.1 ++ [firstImageUrl])
  else (r.1, r.2.1)

/-! ## Store layer: perform_action (src/scraper_func/datatier.py lines 61-75)

A connection is a committed store state plus the pending (uncommitted) state.
`exec` is the SQL statement's effect on the pending state (possibly raising);
`commit_ok` says whether `dbConn.commit()` succeeds.  The source executes,
commits and returns `rowcount`; on any exception it rolls back and re-raises. -/

/-- A database connection: last committed state and current pending state. -/
structure DBConn (α : Type) where
  committed : α
  pending : α
deriving DecidableEq

/-- `dbConn.rollback()`: discard pending changes. -/
def DBConn.rollback {α : Type} (c : DBConn α) : DBConn α :=
  ⟨c.committed, c.committed⟩

/-- `perform_action(dbConn, sql, parameters)` (datatier.py lines 61-75):
execute the statement on the pending state, commit, and return the affected
row count; if execute or commit raises, roll back and re-raise the error. -/
def perform_action {α : Type} (c : DBConn α) (exec : α → Except String (α × Nat))
    (commit_ok : Bool) : Except String Nat × DBConn α :=
  match exec c.pending with
  | Except.error e => (Except.error e, c.rollback)
  | Except.ok (p, rows) =>
    if commit_ok then (Except.ok rows, ⟨p, p⟩)
    else (Except.error "commit failed", DBConn.rollback ⟨c.committed, p⟩)

/-! ## IngestionPipeline (lambda_function.py lines 114-178)

The item loop over `pages[1..]` flattened.  Each iteration increments
`item_num`, reports progress when `item_num % 10 == 0` (lines 124-128),
calls `item_scrapper` on the entry's link (line 131: `fetch`), and -- when a
result came back -- pre-checks the store for the name and inserts otherwise
(lines 140-159).  After each item the loop breaks once `item_num > 300`
(lines 175-178; the inner and outer break together are exactly
stop-after-this-item).  The size/color child-row inserts (lines 161-174) are
not part of the state here: no claim refers to them. -/

/-- A persisted row of the `items` table (line 149). -/
structure Item where
  item_name : String
  price : String
  item_gender : String
deriving DecidableEq, Inhabited

/-- The fields of `item_info` the pipeline reads (lines 135-138). -/
structure ItemInfo where
  gender : String
  sizes : List String
  colors : List String
  photo_links : List String

/-- Pipeline state during the item loop: the `items` table, the progress
reports issued so far (processed count paired with the run total, the two
numbers of the `"<count>/<total>"` progress string), and `item_num`. -/
structure PipeState where
  store : List Item
  reports : List (Nat × Nat)
  itemNum : Nat
deriving DecidableEq

/-- The effect of one item iteration on the `items` table (lines 131-159):
no detail result skips the entry; an existing row with the same name skips
the entry (pre-check, lines 140-145); otherwise the row is inserted. -/
def storeStep (fetch : String → Option ItemInfo) (s : List Item)
    (e : ListingEntry) : List Item :=
  match fetch e.link with
  | none => s
  | some info =>
    if s.any fun it => it.item_name = e.title then s
    else s ++ [⟨e.title, e.price, info.gender⟩]

/-- One iteration of the item loop (lines 120-174): bump `item_num`, report
progress on every 10th item, then run the store effect. -/
def procEntry (fetch : String → Option ItemInfo) (total : Nat) (st : PipeState)
    (e : ListingEntry) : PipeState :=
  let n := st.itemNum + 1
  { store := storeStep fetch st.store e
    reports := if n % 10 == 0 then st.reports ++ [(n, total)] else st.reports
    itemNum := n }

/-- The item loop over the flattened entry list, with the `item_num > 300`
break of lines 175-178 applied after each processed entry. -/
def runPipe (fetch : String → Option ItemInfo) (total : Nat) :
    List ListingEntry → PipeState → PipeState
  | [], st => st
  | e :: es, st =>
    let st' := procEntry fetch total st e
    if st'.itemNum > 300 then st' else runPipe fetch total es st'

/-- The state at line 114: given table contents, no reports, `item_num = 0`. -/
def pipeInit (store : List Item) : PipeState :=
  ⟨store, [], 0⟩

/-! ## Task status lifecycle (lambda_function.py lines 28-198)

The handler's effect on `scraping_tasks.task_status`, abstracted over which
fallible step raises.  The task starts `queued` (created by the submitting
lambda before this handler runs).  Status writes happen at line 64
(`in progress`), line 182 (`completed`) and line 194 (`failed`, inside the
`except`, itself guarded by `if dbConn and taskid` and a nested `try` that
only logs a failure of this update). -/

/-- Task status values. -/
inductive TaskStatus
  | queued
  | in_progress
  | completed
  | failed
deriving DecidableEq

/-- Which fallible steps of one run succeed: event parsing (lines 34-43),
opening the connection (line 61), the `in progress` update (lines 64-65),
the whole scrape-and-ingest body (lines 68-178), the `completed` update
(lines 182-183) and the best-effort `failed` update (lines 194-195). -/
structure RunOracle where
  parse_ok : Bool
  conn_ok : Bool
  mark_in_progress_ok : Bool
  scrape_ok : Bool
  mark_completed_ok : Bool
  mark_failed_ok : Bool
deriving DecidableEq

/-- The persisted task status after `lambda_handler` returns or raises.
A parse or connection failure raises with `dbConn` still `None`, so the
`except` block skips the `failed` update and the status stays `queued`.
A failed status update is rolled back by `perform_action`, leaving the
previous value.  The nested `try` of lines 192-197 means a failing `failed`
update leaves whatever status was last committed. -/
def lambda_handler_status (o : RunOracle) : TaskStatus :=
  if !o.parse_ok then TaskStatus.queued
  else if !o.conn_ok then TaskStatus.queued
  else if !o.mark_in_progress_ok then
    if o.mark_failed_ok then TaskStatus.failed else TaskStatus.queued
  else if !o.scrape_ok then
    if o.mark_failed_ok then TaskStatus.failed else TaskStatus.in_progress
  else if !o.mark_completed_ok then
    if o.mark_failed_ok then TaskStatus.failed else TaskStatus.in_progress
  else TaskStatus.completed

/-- Whether the handler raised (every path except full success re-raises,
line 198). -/
def lambda_handler_raises (o : RunOracle) : Bool :=
  !o.parse_ok || !o.conn_ok || !o.mark_in_progress_ok || !o.scrape_ok ||
    !o.mark_completed_ok

/-! ## Theorems -/

/-- Claim C5: the spec asks for sizes deduplicated by exact string equality
with first-occurrence order; the code instead returns every variant size,
duplicates included, because the seen-list `sizes` is never extended
(asos_item_scraper.py line 45).  On the spec's own test vector
["M","L","M","S"] the code yields ["M","L","M","S"], not ["M","L","S"]
(which is what the spec-side dedup yields). -/
theorem C5_sizes_not_deduped :
    item_scrapper_sizes ["M", "L", "M", "S"] = ["M", "L", "M", "S"] ∧
    item_scrapper_sizes ["M", "L", "M", "S"] ≠ ["M", "L", "S"] ∧
    specDedupSizes ["M", "L", "M", "S"] = ["M", "L", "S"] := by
  decide

/-- A concrete facet structure whose first product is readable and in stock
and whose second product raises on access. -/
def facetsCex : Except Unit (List (Except Unit FacetProd)) :=
  Except.ok [Except.ok ⟨true, "c1", "u1"⟩, Except.error ()]

/-- Claim C6 counterexample: on a detail page whose primary path raises
after one in-stock product was already appended, the partial primary result
is NOT discarded: colors ends with two elements (the partial one plus the
fallback), not exactly one. -/
theorem C6_counterexample :
    (primResult facetsCex).2.2 = true ∧
    item_scrapper_colors facetsCex "vc" "vu" = (["c1", "vc"], ["https://u1", "vu"]) ∧
    (item_scrapper_colors facetsCex "vc" "vu").1.length ≠ 1 := by
  decide

/-- Claim C6 (amended): when the primary facet path raises, the fallback
elements (first variant's colour, first top-level image URL) are appended to
whatever partial primary results were already collected; in particular when
the facet structure itself is inaccessible (raising before any append) the
colors and photo links are each exactly that one fallback element. -/
theorem C6_fallback_appends (facets : Except Unit (List (Except Unit FacetProd)))
    (fc fp : String) (h : (primResult facets).2.2 = true) :
    item_scrapper_colors facets fc fp =
      ((primResult facets).1 ++ [fc], (primResult facets).2.1 ++ [fp]) ∧
    (facets = Except.error () → item_scrapper_colors facets fc fp = ([fc], [fp])) := by
  constructor
  · simp [item_scrapper_colors, h]
  · intro he
    subst he
    simp [item_scrapper_colors, primResult]

/-- Claim C6 witness: the amended theorem at the concrete inaccessible facet
structure. -/
theorem C6_fallback_appends_witness :
    item_scrapper_colors (Except.error ()) "vc" "vu" = (["vc"], ["vu"]) :=
  (C6_fallback_appends (Except.error ()) "vc" "vu" rfl).2 rfl

/-- Claim C9: page extraction produces one ListingEntry per title, and any
entry whose index is past the end of the price or link sequence gets the
empty string for that field; the mismatch never produces an error (mkEntries
is total and its length is the title count). -/
theorem C9_mismatch_defaults (titles prices links : List String) :
    (mkEntries titles prices links).length = titles.length ∧
    ∀ i, i < titles.length →
      (mkEntries titles prices links).getD i default =
        ⟨titles.getD i "", prices.getD i "", links.getD i ""⟩ ∧
      (prices.length ≤ i → ((mkEntries titles prices links).getD i default).price = "") ∧
      (links.length ≤ i → ((mkEntries titles prices links).getD i default).link = "") := by
  constructor
  · simp [mkEntries]
  · intro i hi
    have h1 : (mkEntries titles prices links).getD i default =
        ⟨titles.getD i "", prices.getD i "", links.getD i ""⟩ := by
      simp [mkEntries, List.getD_eq_getElem?_getD, List.getElem?_map,
        List.getElem?_range hi]
    refine ⟨h1, ?_, ?_⟩
    · intro hp
      rw [h1]
      exact List.getD_eq_default _ _ hp
    · intro hl
      rw [h1]
      exact List.getD_eq_default _ _ hl

/-- Claim C9 witness: two titles, one price, no links -- the second entry
gets empty price and link. -/
theorem C9_mismatch_defaults_witness :
    ((mkEntries ["a", "b"] ["1"] []).getD 1 default).price = "" ∧
    ((mkEntries ["a", "b"] ["1"] []).getD 1 default).link = "" :=
  ⟨((C9_mismatch_defaults ["a", "b"] ["1"] []).2 1 (by decide)).2.1 (by decide),
   ((C9_mismatch_defaults ["a", "b"] ["1"] []).2 1 (by decide)).2.2 (by decide)⟩

/-- Claim C10: perform_action either executes and commits, returning the
affected row count with the new state committed, or -- when execute or
commit raises -- rolls back before re-raising, leaving the committed store
unchanged and the pending state reset to it. -/
theorem C10_perform_action_atomic {α : Type} (c : DBConn α)
    (exec : α → Except String (α × Nat)) (commit_ok : Bool) :
    (∀ e, (perform_action c exec commit_ok).1 = Except.error e →
      (perform_action c exec commit_ok).2.committed = c.committed ∧
      (perform_action c exec commit_ok).2.pending = c.committed) ∧
    (∀ n, (perform_action c exec commit_ok).1 = Except.ok n →
      commit_ok = true ∧ ∃ p, exec c.pending = Except.ok (p, n) ∧
        (perform_action c exec commit_ok).2 = ⟨p, p⟩) := by
  unfold perform_action
  cases hx : exec c.pending with
  | error e =>
    refine ⟨fun e' _ => ⟨rfl, rfl⟩, fun n hn => ?_⟩
    simp at hn
  | ok pr =>
    obtain ⟨p, rows⟩ := pr
    cases commit_ok with
    | true =>
      refine ⟨fun e' he => ?_, fun n hn => ?_⟩
      · simp at he
      · simp at hn
        subst hn
        exact ⟨rfl, p, rfl, rfl⟩
    | false =>
      refine ⟨fun e' _ => ⟨rfl, rfl⟩, fun n hn => ?_⟩
      simp at hn

/-- Claim C10 witness: a failing statement on a connection with committed
state 0 leaves the store at 0 with pending rolled back to 0. -/
theorem C10_perform_action_atomic_witness :
    (perform_action (⟨0, 1⟩ : DBConn Nat) (fun _ => Except.error "boom") true).2.committed = 0 ∧
    (perform_action (⟨0, 1⟩ : DBConn Nat) (fun _ => Except.error "boom") true).2.pending = 0 :=
  (C10_perform_action_atomic ⟨0, 1⟩ (fun _ => Except.error "boom") true).1 "boom" rfl

/-- Invariant of the pagination loop: if the stored pages are exactly pages
1..page-1 of the site, and the walk breaks at some later page, then the
returned pages are exactly pages 1..n of the site (n the returned count). -/
theorem walkAux_stored (site : Nat → List ListingEntry) :
    ∀ fuel page stored n out, 1 ≤ page →
      stored = (List.range' 1 (page - 1)).map site →
      walkAux site fuel page stored = some (n, out) →
      out = (List.range' 1 n).map site := by
  intro fuel
  induction fuel with
  | zero => intro page stored n out _ _ h; exact absurd h (by simp [walkAux])
  | succ fuel ih =>
    intro page stored n out hpage hstored h
    rw [walkAux] at h
    by_cases hw : wrapHit (stored.headD []) page (site page) = true
    · rw [if_pos hw] at h
      have hn' : page - 1 = n := congrArg Prod.fst (Option.some.inj h)
      have hout' : stored = out := congrArg Prod.snd (Option.some.inj h)
      rw [← hout', hstored, hn']
    · rw [if_neg hw] at h
      refine ih (page + 1) (stored ++ [site page]) n out (by omega) ?_ h
      have hsucc : page + 1 - 1 = (page - 1) + 1 := by omega
      rw [hsucc, List.range'_1_concat, List.map_append, ← hstored]
      have : 1 + (page - 1) = page := by omega
      simp [this]

/-- Claim C1: when the walk stops via the wrap rule at page N (returning the
page count n = N - 1 and the stored pages), the assembled output is exactly
pages 1..N-1 of the site in ascending page order, within-page order
preserved -- page N is never stored, so none of its entries appear. -/
theorem C1_wrap_output (site : Nat → List ListingEntry) (fuel n : Nat)
    (out : List (List ListingEntry)) (h : walk site fuel = some (n, out)) :
    out = (List.range' 1 n).map site ∧
    out.flatten = ((List.range' 1 n).map site).flatten := by
  have h1 : out = (List.range' 1 n).map site :=
    walkAux_stored site fuel 1 [] n out (by omega) (by simp) h
  exact ⟨h1, by rw [h1]⟩

/-- A three-page synthetic site whose page 3 repeats page 1's first title. -/
def siteW : Nat → List ListingEntry := fun p =>
  if p = 1 then [⟨"a", "pa", "la"⟩]
  else if p = 2 then [⟨"b", "pb", "lb"⟩]
  else [⟨"a", "px", "lx"⟩]

/-- Claim C1 witness: on the synthetic site the walk stops at page 3 and
returns exactly pages 1 and 2. -/
theorem C1_wrap_output_witness :
    ([[⟨"a", "pa", "la"⟩], [⟨"b", "pb", "lb"⟩]] : List (List ListingEntry)) =
      (List.range' 1 2).map siteW :=
  (C1_wrap_output siteW 5 2 [[⟨"a", "pa", "la"⟩], [⟨"b", "pb", "lb"⟩]] (by decide)).1

/-- If the stored page 1 is empty, the wrap check can never fire (the code's
`pages.get(1)` is an empty, falsy dict), so the loop never breaks. -/
theorem walkAux_empty_page1 (site : Nat → List ListingEntry) :
    ∀ fuel page stored, stored ≠ [] → stored.headD [] = [] →
      walkAux site fuel page stored = none := by
  intro fuel
  induction fuel with
  | zero => intro page stored _ _; simp [walkAux]
  | succ fuel ih =>
    intro page stored hne hhead
    rw [walkAux, hhead, if_neg (by simp [wrapHit])]
    refine ih (page + 1) (stored ++ [site page]) (by simp) ?_
    obtain ⟨a, t, rfl⟩ : ∃ a t, stored = a :: t := by
      cases stored with
      | nil => exact absurd rfl hne
      | cons a t => exact ⟨a, t, rfl⟩
    simpa using hhead

/-- Claim C2: when page 1 of the listing yields zero entries, the pagination
loop never terminates -- for every fuel bound the walk is still running
(the code's wrap check requires a non-empty stored page 1, so it never
breaks; the run does not end as the claim requires). -/
theorem C2_empty_page1_loops (site : Nat → List ListingEntry) (fuel : Nat)
    (h : site 1 = []) : walk site fuel = none := by
  rw [walk]
  cases fuel with
  | zero => simp [walkAux]
  | succ fuel =>
    rw [walkAux, if_neg (by simp [wrapHit])]
    refine walkAux_empty_page1 site fuel 2 ([] ++ [site 1]) (by simp) ?_
    simp [h]

/-- Claim C2 witness: the concrete all-empty listing never finishes within
five pages of fuel. -/
theorem C2_empty_page1_loops_witness :
    walk (fun _ => ([] : List ListingEntry)) 5 = none :=
  C2_empty_page1_loops (fun _ => []) 5 rfl

/-- One loop iteration bumps `item_num` by one. -/
theorem procEntry_itemNum (fetch : String → Option ItemInfo) (total : Nat)
    (st : PipeState) (e : ListingEntry) :
    (procEntry fetch total st e).itemNum = st.itemNum + 1 := rfl

/-- One loop iteration applies the store effect. -/
theorem procEntry_store (fetch : String → Option ItemInfo) (total : Nat)
    (st : PipeState) (e : ListingEntry) :
    (procEntry fetch total st e).store = storeStep fetch st.store e := rfl

/-- One loop iteration reports progress exactly on multiples of ten. -/
theorem procEntry_reports (fetch : String → Option ItemInfo) (total : Nat)
    (st : PipeState) (e : ListingEntry) :
    (procEntry fetch total st e).reports =
      if (st.itemNum + 1) % 10 == 0 then st.reports ++ [(st.itemNum + 1, total)]
      else st.reports := rfl

/-- The number of processed entries: all of them, capped by the break at
`item_num > 300` -- the cap fires only after the 301st entry. -/
theorem runPipe_itemNum (fetch : String → Option ItemInfo) (total : Nat) :
    ∀ (es : List ListingEntry) (st : PipeState), st.itemNum ≤ 300 →
      (runPipe fetch total es st).itemNum =
        st.itemNum + min es.length (301 - st.itemNum) := by
  intro es
  induction es with
  | nil => intro st _; simp [runPipe]
  | cons e es ih =>
    intro st h
    rw [runPipe]
    by_cases hc : (procEntry fetch total st e).itemNum > 300
    · rw [if_pos hc, procEntry_itemNum]
      rw [procEntry_itemNum] at hc
      simp only [List.length_cons]
      omega
    · rw [if_neg hc]
      rw [procEntry_itemNum] at hc
      have h2 : (procEntry fetch total st e).itemNum ≤ 300 := by
        rw [procEntry_itemNum]; omega
      rw [ih _ h2, procEntry_itemNum]
      simp only [List.length_cons]
      omega

/-- The `items` table after the loop is a left fold of the per-item store
effect over the processed prefix of the entry list. -/
theorem runPipe_store (fetch : String → Option ItemInfo) (total : Nat) :
    ∀ (es : List ListingEntry) (st : PipeState), st.itemNum ≤ 300 →
      (runPipe fetch total es st).store =
        (es.take (301 - st.itemNum)).foldl (storeStep fetch) st.store := by
  intro es
  induction es with
  | nil => intro st _; simp [runPipe]
  | cons e es ih =>
    intro st h
    rw [runPipe]
    by_cases hc : (procEntry fetch total st e).itemNum > 300
    · rw [if_pos hc, procEntry_store]
      rw [procEntry_itemNum] at hc
      have h300 : st.itemNum = 300 := by omega
      rw [h300]
      norm_num
    · rw [if_neg hc]
      rw [procEntry_itemNum] at hc
      have h2 : (procEntry fetch total st e).itemNum ≤ 300 := by
        rw [procEntry_itemNum]; omega
      rw [ih _ h2, procEntry_itemNum, procEntry_store]
      have hsub : 301 - st.itemNum = (300 - st.itemNum) + 1 := by omega
      rw [hsub, List.take_succ_cons, List.foldl_cons]
      have hsub2 : 301 - (st.itemNum + 1) = 300 - st.itemNum := by omega
      rw [hsub2]

/-- The progress reports produced by the loop: one report per processed
entry whose 1-indexed position is a multiple of ten, in position order. -/
theorem runPipe_reports (fetch : String → Option ItemInfo) (total : Nat) :
    ∀ (es : List ListingEntry) (st : PipeState), st.itemNum ≤ 300 →
      (runPipe fetch total es st).reports =
        st.reports ++
          (((List.range' (st.itemNum + 1) (min es.length (301 - st.itemNum))).filter
            fun n => n % 10 == 0).map fun n => (n, total)) := by
  intro es
  induction es with
  | nil => intro st _; simp [runPipe]
  | cons e es ih =>
    intro st h
    rw [runPipe]
    by_cases hc : (procEntry fetch total st e).itemNum > 300
    · rw [if_pos hc, procEntry_reports]
      rw [procEntry_itemNum] at hc
      have h300 : st.itemNum = 300 := by omega
      rw [h300]
      norm_num
    · rw [if_neg hc]
      rw [procEntry_itemNum] at hc
      have h2 : (procEntry fetch total st e).itemNum ≤ 300 := by
        rw [procEntry_itemNum]; omega
      rw [ih _ h2, procEntry_reports, procEntry_itemNum]
      have hmin : min (e :: es).length (301 - st.itemNum) =
          (min es.length (301 - (st.itemNum + 1))) + 1 := by
        simp only [List.length_cons]
        omega
      rw [hmin, List.range'_succ, List.filter_cons]
      by_cases hmod : ((st.itemNum + 1) % 10 == 0) = true
      · rw [if_pos hmod, if_pos hmod, List.map_cons]
        simp [List.append_assoc]
      · rw [if_neg hmod, if_neg hmod]

/-- The store effect of one item never removes rows. -/
theorem storeStep_subset (fetch : String → Option ItemInfo) (s : List Item)
    (e : ListingEntry) : s ⊆ storeStep fetch s e := by
  unfold storeStep
  cases fetch e.link with
  | none => exact List.Subset.refl s
  | some info =>
    dsimp only
    by_cases hb : s.any (fun it => it.item_name = e.title) = true
    · rw [if_pos hb]
      exact List.Subset.refl s
    · rw [if_neg hb]
      exact List.subset_append_left _ _

/-- The item loop never removes rows from the `items` table. -/
theorem foldl_storeStep_subset (fetch : String → Option ItemInfo) :
    ∀ (l : List ListingEntry) (s : List Item), s ⊆ l.foldl (storeStep fetch) s := by
  intro l
  induction l with
  | nil => intro s; exact List.Subset.refl s
  | cons e l ih =>
    intro s
    rw [List.foldl_cons]
    exact (storeStep_subset fetch s e).trans (ih _)

/-- After processing an entry with a detail result, a row with its title is
in the table (it was either already there or just inserted). -/
theorem storeStep_mem_name (fetch : String → Option ItemInfo) (s : List Item)
    (e : ListingEntry) (info : ItemInfo) (h : fetch e.link = some info) :
    e.title ∈ (storeStep fetch s e).map Item.item_name := by
  unfold storeStep
  rw [h]
  dsimp only
  by_cases hb : s.any (fun it => it.item_name = e.title) = true
  · rw [if_pos hb]
    obtain ⟨it, hmem, heq⟩ := List.any_eq_true.mp hb
    exact List.mem_map.mpr ⟨it, hmem, of_decide_eq_true heq⟩
  · rw [if_neg hb]
    simp

/-- Every processed entry with a detail result ends with its name in the
table. -/
theorem foldl_storeStep_covers (fetch : String → Option ItemInfo) :
    ∀ (l : List ListingEntry) (s : List Item) (e : ListingEntry) (info : ItemInfo),
      e ∈ l → fetch e.link = some info →
      e.title ∈ (l.foldl (storeStep fetch) s).map Item.item_name := by
  intro l
  induction l with
  | nil => intro s e info he _; exact absurd he (List.not_mem_nil e)
  | cons a l ih =>
    intro s e info he hf
    rw [List.foldl_cons]
    rcases List.mem_cons.mp he with rfl | hmem
    · exact List.map_subset _ (foldl_storeStep_subset fetch l _)
        (storeStep_mem_name fetch s e info hf)
    · exact ih _ e info hmem hf

/-- If every fetched entry's name is already in the table, the loop leaves
the table unchanged: the pre-insert duplicate check skips them all. -/
theorem foldl_storeStep_absorb (fetch : String → Option ItemInfo) :
    ∀ (l : List ListingEntry) (s : List Item),
      (∀ e ∈ l, ∀ info, fetch e.link = some info →
        e.title ∈ s.map Item.item_name) →
      l.foldl (storeStep fetch) s = s := by
  intro l
  induction l with
  | nil => intro s _; rfl
  | cons a l ih =>
    intro s hcov
    rw [List.foldl_cons]
    have hstep : storeStep fetch s a = s := by
      unfold storeStep
      cases hf : fetch a.link with
      | none => rfl
      | some info =>
        dsimp only
        obtain ⟨it, hit, hname⟩ :=
          List.mem_map.mp (hcov a (List.mem_cons_self a l) info hf)
        have hb : s.any (fun it => it.item_name = a.title) = true :=
          List.any_eq_true.mpr ⟨it, hit, decide_eq_true hname⟩
        rw [if_pos hb]
    rw [hstep]
    exact ih s fun e he info hf => hcov e (List.mem_cons_of_mem a he) info hf

/-- The duplicate pre-check keeps the names in the `items` table distinct. -/
theorem foldl_storeStep_nodup (fetch : String → Option ItemInfo) :
    ∀ (l : List ListingEntry) (s : List Item),
      (s.map Item.item_name).Nodup →
      ((l.foldl (storeStep fetch) s).map Item.item_name).Nodup := by
  intro l
  induction l with
  | nil => intro s h; exact h
  | cons a l ih =>
    intro s h
    rw [List.foldl_cons]
    refine ih _ ?_
    unfold storeStep
    cases hf : fetch a.link with
    | none => exact h
    | some info =>
      dsimp only
      by_cases hb : s.any (fun it => it.item_name = a.title) = true
      · rw [if_pos hb]; exact h
      · rw [if_neg hb, List.map_append]
        refine List.nodup_append.mpr ⟨h, List.nodup_singleton _, ?_⟩
        intro x hx hx'
        simp at hx'
        subst hx'
        obtain ⟨it, hit, hname⟩ := List.mem_map.mp hx
        exact hb (List.any_eq_true.mpr ⟨it, hit, decide_eq_true hname⟩)

/-- Claim C3: running the ingestion loop a second time over the same entry
list, against the table the first run produced, leaves the table unchanged
(every fetched entry's name already exists and is skipped), and the table
holds at most one row per name (no duplicate Item is ever created). -/
theorem C3_idempotent_ingestion (fetch : String → Option ItemInfo)
    (total1 total2 : Nat) (es : List ListingEntry) :
    (runPipe fetch total2 es
        (pipeInit (runPipe fetch total1 es (pipeInit [])).store)).store =
      (runPipe fetch total1 es (pipeInit [])).store ∧
    ((runPipe fetch total1 es (pipeInit [])).store.map Item.item_name).Nodup ∧
    (∀ e ∈ es.take 301, ∀ info, fetch e.link = some info →
      e.title ∈ (runPipe fetch total1 es (pipeInit [])).store.map Item.item_name) := by
  have hs1 : (runPipe fetch total1 es (pipeInit [])).store =
      (es.take 301).foldl (storeStep fetch) [] := by
    rw [runPipe_store fetch total1 es (pipeInit []) (by simp [pipeInit])]
    simp [pipeInit]
  have hs2 : (runPipe fetch total2 es
      (pipeInit (runPipe fetch total1 es (pipeInit [])).store)).store =
      (es.take 301).foldl (storeStep fetch)
        (runPipe fetch total1 es (pipeInit [])).store := by
    rw [runPipe_store fetch total2 es _ (by simp [pipeInit])]
    simp [pipeInit]
  refine ⟨?_, ?_, ?_⟩
  · rw [hs2]
    refine foldl_storeStep_absorb fetch _ _ fun e he info hf => ?_
    rw [hs1]
    exact foldl_storeStep_covers fetch (es.take 301) [] e info he hf
  · rw [hs1]
    exact foldl_storeStep_nodup fetch _ [] (by simp)
  · intro e he info hf
    rw [hs1]
    exact foldl_storeStep_covers fetch (es.take 301) [] e info he hf

/-- A fixed listing entry and detail result for the idempotence witness. -/
def entryW : ListingEntry := ⟨"t1", "p1", "l1"⟩

/-- The detail result the witness's fetch oracle always returns. -/
def infoW : ItemInfo := ⟨"g", [], [], []⟩

/-- Claim C3 witness: a one-entry run persists the entry's name. -/
theorem C3_idempotent_ingestion_witness :
    entryW.title ∈
      ((runPipe (fun _ => some infoW) 1 [entryW] (pipeInit [])).store.map
        Item.item_name) :=
  (C3_idempotent_ingestion (fun _ => some infoW) 1 1 [entryW]).2.2 entryW
    (by simp) infoW rfl

/-- Claim C7: across any run the progress reports are issued exactly at the
processed entries whose 1-indexed position is a multiple of ten -- the
reported counts are precisely those positions in increasing order (so for a
25-entry run: positions 10 and 20), each paired with the run total, and the
sequence of reported counts is monotonically non-decreasing. -/
theorem C7_progress_reports (fetch : String → Option ItemInfo) (total : Nat)
    (es : List ListingEntry) :
    (runPipe fetch total es (pipeInit [])).reports =
      ((List.range' 1 (min es.length 301)).filter fun n => n % 10 == 0).map
        (fun n => (n, total)) ∧
    ((runPipe fetch total es (pipeInit [])).reports.map Prod.fst).Pairwise (· ≤ ·) := by
  have h1 : (runPipe fetch total es (pipeInit [])).reports =
      ((List.range' 1 (min es.length 301)).filter fun n => n % 10 == 0).map
        (fun n => (n, total)) := by
    rw [runPipe_reports fetch total es (pipeInit []) (by simp [pipeInit])]
    simp [pipeInit]
  refine ⟨h1, ?_⟩
  rw [h1, List.map_map]
  have hcomp : (Prod.fst ∘ fun n : Nat => (n, total)) = id := rfl
  rw [hcomp, List.map_id]
  exact List.Pairwise.sublist (List.filter_sublist _) (List.pairwise_le_range' 1 _)

/-- Claim C8 (amended): the break of lines 175-178 fires only after the
301st processed entry (`item_num > 300` is checked after the increment), so
a run processes min(entries, 301) entries -- at most 301, not 300. -/
theorem C8_cap_301 (fetch : String → Option ItemInfo) (total : Nat)
    (es : List ListingEntry) (store0 : List Item) :
    (runPipe fetch total es (pipeInit store0)).itemNum = min es.length 301 ∧
    (runPipe fetch total es (pipeInit store0)).itemNum ≤ 301 := by
  have h := runPipe_itemNum fetch total es (pipeInit store0) (by simp [pipeInit])
  constructor
  · rw [h]; simp [pipeInit]
  · rw [h]; simp [pipeInit]

/-- A fixed listing entry for the counterexample run. -/
def entry0 : ListingEntry := ⟨"t0", "p0", "l0"⟩

/-- Claim C8 counterexample: on a 302-entry listing the run processes 301
entries, refuting the claimed bound of at most 300. -/
theorem C8_counterexample :
    (runPipe (fun _ => none) 302 (List.replicate 302 entry0) (pipeInit [])).itemNum
      = 301 ∧
    ¬ ((runPipe (fun _ => none) 302 (List.replicate 302 entry0)
        (pipeInit [])).itemNum ≤ 300) := by
  have h := runPipe_itemNum (fun _ => none) 302 (List.replicate 302 entry0)
    (pipeInit []) (by simp [pipeInit])
  rw [List.length_replicate] at h
  constructor
  · rw [h]; simp [pipeInit]
  · rw [h]; simp [pipeInit]

/-- Claim C4 counterexample: a run whose scrape body raises and whose
best-effort `failed` update also fails leaves the task `in progress` -- the
persisted status is neither `completed` nor `failed` after the handler
raises. -/
theorem C4_counterexample :
    lambda_handler_status ⟨true, true, true, false, true, false⟩ =
      TaskStatus.in_progress ∧
    lambda_handler_status ⟨true, true, true, false, true, false⟩ ≠
      TaskStatus.completed ∧
    lambda_handler_status ⟨true, true, true, false, true, false⟩ ≠
      TaskStatus.failed ∧
    lambda_handler_raises ⟨true, true, true, false, true, false⟩ = true := by
  decide

/-- Claim C4 (amended): provided the event parses, the store connection
opens, and the best-effort `failed` update succeeds whenever it is
attempted, the persisted status after the handler returns or raises is
exactly `completed` or `failed`; when the failed-update itself fails the
status can remain `in progress` (and on pre-connection failures `queued`). -/
theorem C4_terminal_status (o : RunOracle) (hp : o.parse_ok = true)
    (hc : o.conn_ok = true) (hf : o.mark_failed_ok = true) :
    lambda_handler_status o = TaskStatus.completed ∨
    lambda_handler_status o = TaskStatus.failed := by
  obtain ⟨p, c, ip, s, mc, mf⟩ := o
  simp only at hp hc hf
  subst hp
  subst hc
  subst hf
  cases ip <;> cases s <;> cases mc <;> decide

/-- Claim C4 witness: a run failing mid-scrape with a working tracker ends
`failed`. -/
theorem C4_terminal_status_witness :
    lambda_handler_status ⟨true, true, true, false, true, true⟩ =
      TaskStatus.completed ∨
    lambda_handler_status ⟨true, true, true, false, true, true⟩ =
      TaskStatus.failed :=
  C4_terminal_status ⟨true, true, true, false, true, true⟩ rfl rfl rfl

end FitFinder
